import Mathlib

/-!
Shallow embedding of the REST controller of deluan/rest (the final, generic
version: Controller[T] with Repository[T]/Persistable[T] capabilities).

Sources embedded here:
- the Controller handlers Get, GetAll, Post, Put, Delete, and the helpers
  getFieldNames, parseFilters, parseOptions;
- the response helpers RespondWithError / RespondWithJSON and the error values
  ErrNotFound, ErrPermissionDenied and ValidationError.

Modelling conventions:
- JSON values are the inductive type Json below; numeric precision is
  irrelevant to every claim, so numbers carry an Int.
- Go's url.Values is an association list from keys to lists of values;
  being a Go map, its keys are pairwise distinct, which theorems take as a
  Nodup hypothesis where the content of the folded filter map matters.
- Go's standard library primitives url.QueryUnescape and json.Unmarshal
  (into a generic object) are external collaborators; they are carried as an
  explicit Stdlib record of functions, so every theorem quantifies over them.
  queryUnescape returns the unescaped string (Go returns the empty string
  together with the error when unescaping fails, and the caller discards the
  error, so the failure case is the function returning the empty string).
  unmarshalObj succeeds exactly on well-formed JSON object texts and returns
  the top-level fields in textual order (a later duplicate key overrides an
  earlier one when folded into a map, matching Go map semantics).
- Go's int is modelled as the 64-bit variant (the int64 range), with the
  wrap-around of subtraction made explicit by wrap64, and the
  int(math.Max(0, float64(x))) pipeline of parseOptions made explicit by
  goFloatMax0 / rnd53 (round to nearest even at 53 significant bits, which is
  exact float64 conversion for every int64 input; the conversion back to int
  is exact whenever the rounded value is nonnegative and below 2^63, which is
  the case in every theorem and counterexample below).
- Backends are records of pure functions over an explicit state type sigma;
  fallible calls return Except Err. Count returns a pair because the Go code
  uses the returned count value even when the error is non-nil.
- Each handler returns the Response written, the ordered list of effects that
  happened (body read, backend calls) and the final backend state.
-/

namespace Rest

/-- JSON values, as produced by encoding/json. Numbers carry an Int since no
claim depends on numeric precision. -/
inductive Json where
  | null
  | bool (b : Bool)
  | num (n : Int)
  | str (s : String)
  | arr (elems : List Json)
  | obj (fields : List (String × Json))

/-- Values stored in the filters map built by Controller.parseFilters: a value
decoded from the _filters JSON object, a scalar string (single-valued query
key), or a list of strings (multi-valued query key). -/
inductive FVal where
  | jsonVal (j : Json)
  | str (s : String)
  | strs (vs : List String)

/-- The filters map (Go: map of string to any), as an association list with
insert-or-replace update. Only its key/value content is meaningful. -/
abbrev Filters := List (String × FVal)

/-- Insert-or-replace into the filters map (Go map assignment). -/
def fset (m : Filters) (k : String) (v : FVal) : Filters :=
  match m with
  | [] => [(k, v)]
  | (k', v') :: rest => if k' = k then (k, v) :: rest else (k', v') :: fset rest k v

/-- Lookup in the filters map (Go map read). -/
def fget (m : Filters) (k : String) : Option FVal :=
  (m.find? (fun p => p.1 == k)).map Prod.snd

/-- Flattened query parameters (Go: url.Values), a map from key to the list of
values for that key, modelled as an association list. -/
abbrev Params := List (String × List String)

/-- All values of a key (Go: indexing the url.Values map; absent key yields the
nil slice). -/
def getAllVals (params : Params) (key : String) : List String :=
  ((params.find? (fun p => p.1 == key)).map Prod.snd).getD []

/-- First value of a key (Go: url.Values.Get; empty string when the key is
absent or has no values). -/
def vget (params : Params) (key : String) : String :=
  match (params.find? (fun p => p.1 == key)).map Prod.snd with
  | some (v :: _) => v
  | _ => ""

/-- The strings.HasPrefix check of parseFilters, specialised to the one-char
prefix the code uses. -/
def startsWithUnderscore (s : String) : Bool :=
  match s.data with
  | c :: _ => c = '_'
  | [] => false

/-- Go's strings.ToLower restricted to the character-wise mapping (sufficient
for every string a claim mentions). -/
def goToLower (s : String) : String := ⟨s.data.map Char.toLower⟩

/-! Go integer parsing: strconv.Atoi. The handler discards the error, so both
the successfully parsed value and the value returned alongside an error (0 on
a syntax error, the clamped bound on a range error) matter. -/

/-- Value of an all-digit character list (none when empty or when any
character is not a decimal digit). -/
def digitsVal (cs : List Char) : Option Nat :=
  if cs = [] then none
  else if cs.all Char.isDigit then
    some (cs.foldl (fun a c => a * 10 + (c.toNat - 48)) 0)
  else none

/-- Unbounded syntactic parse behind strconv.Atoi: optional sign followed by
one or more decimal digits and nothing else. -/
def atoiParsed (s : String) : Option Int :=
  match s.data with
  | '+' :: cs => (digitsVal cs).map Int.ofNat
  | '-' :: cs => (digitsVal cs).map (fun n => -(n : Int))
  | cs => (digitsVal cs).map Int.ofNat

def int64Min : Int := -(2 ^ 63)

def int64Max : Int := 2 ^ 63 - 1

/-- strconv.Atoi when it returns a nil error: the text is a well-formed
integer that fits the (64-bit) int range. -/
def atoiOk (s : String) : Option Int :=
  (atoiParsed s).bind fun v =>
    if int64Min ≤ v ∧ v ≤ int64Max then some v else none

/-- The first return value of strconv.Atoi, which the handler uses with the
error discarded: 0 on a syntax error, the nearest int bound on a range error,
the parsed value otherwise. -/
def goAtoiVal (s : String) : Int :=
  match atoiParsed s with
  | none => 0
  | some v => if v < int64Min then int64Min else if v > int64Max then int64Max else v

/-- Two's-complement wrap-around of 64-bit signed subtraction (Go defines
signed overflow as wrapping). -/
def wrap64 (x : Int) : Int := (x + 2 ^ 63) % 2 ^ 64 - 2 ^ 63

/-- Smallest power of two u such that n / u has fewer than 54 significant
bits; fuel-based so that it reduces structurally (64 bits of fuel cover every
int64 magnitude). -/
def unitFor : Nat → Nat → Nat
  | 0, _ => 1
  | fuel + 1, n => if n < 2 ^ 53 then 1 else 2 * unitFor fuel (n / 2)

/-- Round a natural number to the nearest multiple of the float64 spacing at
its magnitude, ties to even: the exact value of float64(n) for n below 2^64. -/
def rnd53Nat (n : Nat) : Nat :=
  let u := unitFor 64 n
  let q := n / u
  let r := n % u
  if 2 * r < u then q * u
  else if 2 * r > u then (q + 1) * u
  else if q % 2 = 0 then q * u else (q + 1) * u

/-- Exact value of the float64 conversion of an int64. -/
def rnd53 (x : Int) : Int :=
  if x < 0 then -(rnd53Nat x.natAbs : Int) else (rnd53Nat x.natAbs : Int)

/-- The int(math.Max(0, float64(x))) pipeline of parseOptions: convert to
float64 (rounding at 53 bits), take the maximum with 0, convert back. The
final conversion is exact whenever the rounded value is in the int64 range,
which holds in every statement below. -/
def goFloatMax0 (x : Int) : Int :=
  let f := rnd53 x
  if f ≤ 0 then 0 else f

/-- QueryOptions (repository.go): pagination, sorting and filtering options
derived from the query string. Field names are the Go field names in Lean
casing. -/
structure QueryOptions where
  sort : String
  order : String
  max : Int
  offset : Int
  filters : Filters

/-- The Go standard-library collaborators used by parseFilters, carried
explicitly so theorems quantify over them: url.QueryUnescape (returning the
empty string when Go would return an error, since the caller discards the
error) and json.Unmarshal into a generic JSON object (erring exactly on text
that is not a well-formed JSON object). -/
structure Stdlib where
  queryUnescape : String → String
  unmarshalObj : String → Except String (List (String × Json))

/-- How parseFilters folds the values of one non-underscore query key into the
filters map: a single value as a scalar, anything else as the list itself. -/
def foldVal (vs : List String) : FVal :=
  match vs with
  | [v] => FVal.str v
  | _ => FVal.strs vs

/-- The loop json.Unmarshal performs when decoding an object into a map:
store each field in textual order, a later duplicate key overriding an
earlier one. -/
def insertPairs : List (String × Json) → Filters → Filters
  | [], m => m
  | kv :: rest, m => insertPairs rest (fset m kv.1 (FVal.jsonVal kv.2))

/-- The filters map decoded from the _filters JSON object. -/
def filtersFromPairs (pairs : List (String × Json)) : Filters :=
  insertPairs pairs []

/-- The loop of parseFilters over the query parameters: skip keys starting
with an underscore, fold every other key with foldVal. -/
def foldParams : Params → Filters → Filters
  | [], m => m
  | kv :: rest, m =>
      foldParams rest
        (if startsWithUnderscore kv.1 then m else fset m kv.1 (foldVal kv.2))

/-- Controller.parseFilters: start from the decoded _filters JSON object when
that parameter is present (failing the whole parse when it does not decode),
then fold every query parameter whose key does not start with an underscore
into the map, a single-valued key as a scalar string and a multi-valued key as
the list of its values. -/
def parseFilters (lib : Stdlib) (params : Params) : Except String Filters :=
  let filterStr := vget params "_filters"
  let base : Except String Filters :=
    if filterStr ≠ "" then
      match lib.unmarshalObj (lib.queryUnescape filterStr) with
      | Except.error e => Except.error e
      | Except.ok pairs => Except.ok (filtersFromPairs pairs)
    else Except.ok []
  match base with
  | Except.error e => Except.error e
  | Except.ok filters => Except.ok (foldParams params filters)

/-- Controller.parseOptions: _start and _end through strconv.Atoi with the
error discarded, _sort verbatim, _order lower-cased, max through the
int(math.Max(0, float64(end-start))) pipeline, and the filters from
parseFilters (whose failure fails the whole parse). -/
def parseOptions (lib : Stdlib) (params : Params) : Except String QueryOptions :=
  let start := goAtoiVal (vget params "_start")
  let stop := goAtoiVal (vget params "_end")
  let sortField := vget params "_sort"
  let sortDir := vget params "_order"
  match parseFilters lib params with
  | Except.error e => Except.error e
  | Except.ok filters =>
      Except.ok
        { sort := sortField
          order := goToLower sortDir
          offset := start
          max := goFloatMax0 (wrap64 (stop - start))
          filters := filters }

/-! The backend contracts and the controller. -/

/-- Backend error outcomes (errors.go): the two sentinel errors, the
structured ValidationError (a field-name to message map), and any other error
carrying only its textual description. -/
inductive Err where
  | notFound
  | permissionDenied
  | validation (errors : List (String × String))
  | other (msg : String)

/-- A concrete rendering of a field-error map, standing for Go's formatting of
the Errors map in ValidationError.Error(). No claim depends on this text. -/
def fmtFieldErrors (es : List (String × String)) : String :=
  "map[" ++ String.intercalate " " (es.map (fun p => p.1 ++ ":" ++ p.2)) ++ "]"

/-- The err.Error() text of each backend error (errors.go): the sentinel
messages, the ValidationError format, or the wrapped message itself. -/
def errText : Err → String
  | Err.notFound => "data not found"
  | Err.permissionDenied => "permission denied"
  | Err.validation es => "Errors: " ++ fmtFieldErrors es
  | Err.other msg => msg

/-- Go's formatting of a slice of ids, as interpolated into Delete's
not-found/permission messages. -/
def fmtIds (ids : List String) : String :=
  "[" ++ String.intercalate " " ids ++ "]"

/-- The read-only Repository capability (Count, Read, ReadAll), as used by the
controller: functions over an explicit backend state. Count returns its value
alongside an optional error because the controller uses the value even when
the error is non-nil. -/
structure Repository (σ T : Type) where
  Count : σ → QueryOptions → Int × Option Err
  Read : σ → String → Except Err T
  ReadAll : σ → QueryOptions → Except Err (List T)

/-- The mutation capability Persistable (Save, Update, Delete); mutating calls
return the new backend state. -/
structure Persistable (σ T : Type) where
  Save : σ → T → Except Err (String × σ)
  Update : σ → String → T → List String → Except Err σ
  Delete : σ → List String → Except Err σ

/-- The controller: its repository, the result of the runtime capability
assertion (none when the backend is not Persistable), the JSON codec of the
entity type T (encoding/json specialised to T), and the entity display name
(entityName()). -/
structure Controller (σ T : Type) where
  repository : Repository σ T
  persistable : Option (Persistable σ T)
  decode : Json → Option T
  encode : T → Json
  name : String

/-- One HTTP response: status code, JSON body, and the X-Total-Count header
when the handler sets it. -/
structure Response where
  status : Nat
  body : Json
  xTotalCount : Option String := none

/-- RespondWithJSON (responses.go) with a payload already rendered as JSON. -/
def RespondWithJSON (code : Nat) (payload : Json) : Response :=
  { status := code, body := payload }

/-- RespondWithError (responses.go): a JSON object with a single error field
holding the message. -/
def RespondWithError (code : Nat) (message : String) : Response :=
  RespondWithJSON code (Json.obj [("error", Json.str message)])

/-- The JSON rendering of a ValidationError: an object with a single errors
field holding the field-name to message map. -/
def encodeValidationError (es : List (String × String)) : Json :=
  Json.obj [("errors", Json.obj (es.map (fun p => (p.1, Json.str p.2))))]

/-- Observable effects of one handler invocation, in order: reading the
request body, and each backend call with its arguments. -/
inductive Event (T : Type) where
  | bodyRead
  | read (id : String)
  | readAll (opts : QueryOptions)
  | count (opts : QueryOptions)
  | save (entity : T)
  | update (id : String) (entity : T) (fields : List String)
  | delete (ids : List String)

/-- Result of one handler invocation: the response written, the ordered
effects, and the final backend state. -/
structure HResult (σ T : Type) where
  resp : Response
  events : List (Event T)
  state : σ

/-- Controller.Get: read the :id query key, call Read, and map the outcome
(success 200 with the entity; not-found 404; permission-denied 403; anything
else 500 with the error text). -/
def Controller.Get (c : Controller σ T) (s : σ) (params : Params) : HResult σ T :=
  let id := vget params ":id"
  match c.repository.Read s id with
  | Except.ok entity =>
      ⟨RespondWithJSON 200 (c.encode entity), [Event.read id], s⟩
  | Except.error Err.notFound =>
      ⟨RespondWithError 404 (c.name ++ "(id:" ++ id ++ ") not found"), [Event.read id], s⟩
  | Except.error Err.permissionDenied =>
      ⟨RespondWithError 403 ("Reading " ++ c.name ++ "(id:" ++ id ++ "): Permission denied"),
        [Event.read id], s⟩
  | Except.error e =>
      ⟨RespondWithError 500 (errText e), [Event.read id], s⟩

/-- Controller.GetAll: parse the options (a parse failure yields 400 and no
backend call), call ReadAll, and on success call Count, set X-Total-Count to
the decimal rendering of the returned count with the count error discarded,
and render the entities, an empty result explicitly as the empty JSON array;
ReadAll's permission-denied maps to 403, any other ReadAll error to 500. -/
def Controller.GetAll (lib : Stdlib) (c : Controller σ T) (s : σ) (params : Params) :
    HResult σ T :=
  match parseOptions lib params with
  | Except.error e => ⟨RespondWithError 400 e, [], s⟩
  | Except.ok options =>
      match c.repository.ReadAll s options with
      | Except.ok entities =>
          let cnt := (c.repository.Count s options).1
          let body :=
            if entities.length = 0 then Json.arr []
            else Json.arr (entities.map c.encode)
          ⟨{ status := 200, body := body, xTotalCount := some (toString cnt) },
            [Event.readAll options, Event.count options], s⟩
      | Except.error Err.permissionDenied =>
          ⟨RespondWithError 403 ("Error reading " ++ c.name ++ ": Permission denied"),
            [Event.readAll options], s⟩
      | Except.error e =>
          ⟨RespondWithError 500 (errText e), [Event.readAll options], s⟩

/-- Controller.getFieldNames: re-parse the raw body as a generic JSON object
and return its distinct top-level key names (Go: the keys of a map of string
to json.RawMessage; unmarshalling the JSON text null into a map succeeds and
leaves it empty, any other non-object fails). The order of the keys is
irrelevant to every claim (Go iterates the map in unspecified order). -/
def Controller.getFieldNames : Json → Except String (List String)
  | Json.obj fields => Except.ok ((fields.map Prod.fst).dedup)
  | Json.null => Except.ok []
  | _ => Except.error "json: cannot unmarshal value into map"

/-- Controller.Put: without the Persistable capability respond 405 at once
(before the body is read). Otherwise read the body (a body that is not valid
JSON, a body that does not decode into T, or a body that is not a JSON object
each yield 422 before any backend call), call Update with the entity and the
field names present in the body, and map the outcome: success re-invokes the
Get path on the post-update state; not-found 404; permission-denied 403;
ValidationError 400 with its JSON rendering; anything else 500. The request
body is modelled as the optional JSON value its bytes decode to (none when the
bytes are not valid JSON; Go's io.ReadAll failure produces the same 422 as an
undecodable body). -/
def Controller.Put (c : Controller σ T) (s : σ) (params : Params) (body : Option Json) :
    HResult σ T :=
  match c.persistable with
  | none => ⟨RespondWithError 405 "405 Method Not Allowed", [], s⟩
  | some repo =>
      match body with
      | none => ⟨RespondWithError 422 "Invalid request payload", [Event.bodyRead], s⟩
      | some j =>
          match c.decode j with
          | none => ⟨RespondWithError 422 "Invalid request payload", [Event.bodyRead], s⟩
          | some entity =>
              match Controller.getFieldNames j with
              | Except.error _ =>
                  ⟨RespondWithError 422 "Invalid request payload", [Event.bodyRead], s⟩
              | Except.ok fields =>
                  let id := vget params ":id"
                  match repo.Update s id entity fields with
                  | Except.ok s' =>
                      let g := Controller.Get c s' params
                      ⟨g.resp, Event.bodyRead :: Event.update id entity fields :: g.events,
                        g.state⟩
                  | Except.error Err.notFound =>
                      ⟨RespondWithError 404 (c.name ++ " not found"),
                        [Event.bodyRead, Event.update id entity fields], s⟩
                  | Except.error Err.permissionDenied =>
                      ⟨RespondWithError 403 ("Updating " ++ c.name ++ ": Permission denied"),
                        [Event.bodyRead, Event.update id entity fields], s⟩
                  | Except.error (Err.validation es) =>
                      ⟨RespondWithJSON 400 (encodeValidationError es),
                        [Event.bodyRead, Event.update id entity fields], s⟩
                  | Except.error e =>
                      ⟨RespondWithError 500 (errText e),
                        [Event.bodyRead, Event.update id entity fields], s⟩

/-- Controller.Post: without the Persistable capability respond 405 at once.
Otherwise decode the body into a new entity (failure yields 422 before any
backend call), call Save, and map the outcome: success 200 with an id object;
permission-denied 403; ValidationError 400; anything else (including
not-found, which Post does not special-case) 500. -/
def Controller.Post (c : Controller σ T) (s : σ) (body : Option Json) : HResult σ T :=
  match c.persistable with
  | none => ⟨RespondWithError 405 "405 Method Not Allowed", [], s⟩
  | some repo =>
      match body.bind c.decode with
      | none => ⟨RespondWithError 422 "Invalid request payload", [Event.bodyRead], s⟩
      | some entity =>
          match repo.Save s entity with
          | Except.ok (id, s') =>
              ⟨RespondWithJSON 200 (Json.obj [("id", Json.str id)]),
                [Event.bodyRead, Event.save entity], s'⟩
          | Except.error Err.permissionDenied =>
              ⟨RespondWithError 403 ("Saving " ++ c.name ++ ": Permission denied"),
                [Event.bodyRead, Event.save entity], s⟩
          | Except.error (Err.validation es) =>
              ⟨RespondWithJSON 400 (encodeValidationError es),
                [Event.bodyRead, Event.save entity], s⟩
          | Except.error e =>
              ⟨RespondWithError 500 (errText e), [Event.bodyRead, Event.save entity], s⟩

/-- Controller.Delete: without the Persistable capability respond 405 at once.
Otherwise collect every value of the :id query key and call Delete with them;
success 200 with an empty JSON object; not-found 404; permission-denied 403;
anything else 500. -/
def Controller.Delete (c : Controller σ T) (s : σ) (params : Params) : HResult σ T :=
  match c.persistable with
  | none => ⟨RespondWithError 405 "405 Method Not Allowed", [], s⟩
  | some repo =>
      let ids := getAllVals params ":id"
      match repo.Delete s ids with
      | Except.ok s' =>
          ⟨RespondWithJSON 200 (Json.obj []), [Event.delete ids], s'⟩
      | Except.error Err.notFound =>
          ⟨RespondWithError 404 (c.name ++ "(id:" ++ fmtIds ids ++ ") not found"),
            [Event.delete ids], s⟩
      | Except.error Err.permissionDenied =>
          ⟨RespondWithError 403 ("Deleting " ++ c.name ++ "(id:" ++ fmtIds ids ++ "): Permission denied"),
            [Event.delete ids], s⟩
      | Except.error e =>
          ⟨RespondWithError 500 (errText e), [Event.delete ids], s⟩

/-- Field lookup in a JSON object (none on non-objects and absent keys). -/
def getField (j : Json) (k : String) : Option Json :=
  match j with
  | Json.obj fs => (fs.find? (fun p => p.1 == k)).map Prod.snd
  | _ => none

/-- The failure-body contract: the body carries an error field holding a
string and no errors field, or an errors field holding an object and no error
field — never both. -/
def failureBodyOk (j : Json) : Prop :=
  ((∃ msg, getField j "error" = some (Json.str msg)) ∧ getField j "errors" = none) ∨
  ((∃ es, getField j "errors" = some (Json.obj es)) ∧ getField j "error" = none)

/-! Concrete fixtures used by witnesses and counterexamples. -/

/-- A concrete standard library whose object unmarshaller rejects everything;
used where the _filters parameter is absent or deliberately malformed. -/
def stdlibFail : Stdlib :=
  { queryUnescape := id
    unmarshalObj := fun _ => Except.error "unexpected end of JSON input" }

/-- A concrete standard library whose object unmarshaller accepts exactly one
_filters text and decodes it into a two-field object. -/
def stdlibTwoFields : Stdlib :=
  { queryUnescape := id
    unmarshalObj := fun s =>
      if s = "FOBJ" then Except.ok [("a", Json.str "1"), ("b", Json.num 2)]
      else Except.error "invalid character" }

/-- A concrete read-only backend over a Nat state. -/
def repoW : Repository Nat Unit :=
  { Count := fun _ _ => (0, none)
    Read := fun _ _ => Except.error Err.notFound
    ReadAll := fun _ _ => Except.ok [] }

/-- A concrete mutable capability over a Nat state (Save bumps the state). -/
def persW : Persistable Nat Unit :=
  { Save := fun s _ => Except.ok ("1", s + 1)
    Update := fun s _ _ _ => Except.ok s
    Delete := fun s _ => Except.ok s }

/-- A controller whose backend lacks the Persistable capability. -/
def cReadOnly : Controller Nat Unit :=
  { repository := repoW
    persistable := none
    decode := fun _ => some ()
    encode := fun _ => Json.null
    name := "thing" }

/-- A controller over a Persistable backend whose decoder accepts exactly JSON
objects. -/
def cPersist : Controller Nat Unit :=
  { repository := repoW
    persistable := some persW
    decode := fun j => match j with | Json.obj _ => some () | _ => none
    encode := fun _ => Json.null
    name := "thing" }

/-- A controller whose Count fails (and still reports a value): its GetAll
must succeed regardless. -/
def cCountErr : Controller Nat Unit :=
  { repository :=
      { Count := fun _ _ => (0, some (Err.other "count failed"))
        Read := fun _ _ => Except.error Err.notFound
        ReadAll := fun _ _ => Except.ok [] }
    persistable := none
    decode := fun _ => some ()
    encode := fun _ => Json.null
    name := "thing" }

/-- The options parsed from an empty query string. -/
def optsEmpty : QueryOptions :=
  { sort := "", order := "", max := 0, offset := 0, filters := [] }

/-- A controller over a Persistable backend whose Read succeeds, exercising
the re-read after a successful update. -/
def cPut : Controller Nat Unit :=
  { repository :=
      { Count := fun _ _ => (0, none)
        Read := fun _ _ => Except.ok ()
        ReadAll := fun _ _ => Except.ok [] }
    persistable := some persW
    decode := fun j => match j with | Json.obj _ => some () | _ => none
    encode := fun _ => Json.null
    name := "thing" }

/-- Query parameters whose _start and _end are in-range integers whose
difference overflows the 64-bit subtraction inside parseOptions. -/
def c3params : Params :=
  [("_start", ["-4611686018427387904"]), ("_end", ["4611686018427387904"])]

/-! Characterizations of the option parser, and small helper lemmas. -/

theorem parseFilters_no_filterstr (lib : Stdlib) (params : Params)
    (h : vget params "_filters" = "") :
    parseFilters lib params = Except.ok (foldParams params []) := by
  unfold parseFilters
  simp [h]

theorem parseFilters_unmarshal_ok (lib : Stdlib) (params : Params)
    (pairs : List (String × Json))
    (h : vget params "_filters" ≠ "")
    (hm : lib.unmarshalObj (lib.queryUnescape (vget params "_filters")) = Except.ok pairs) :
    parseFilters lib params = Except.ok (foldParams params (filtersFromPairs pairs)) := by
  unfold parseFilters
  simp [h, hm]

theorem parseFilters_unmarshal_error (lib : Stdlib) (params : Params) (msg : String)
    (h : vget params "_filters" ≠ "")
    (hm : lib.unmarshalObj (lib.queryUnescape (vget params "_filters")) = Except.error msg) :
    parseFilters lib params = Except.error msg := by
  unfold parseFilters
  simp [h, hm]

theorem parseOptions_of_filters (lib : Stdlib) (params : Params) (f : Filters)
    (hpf : parseFilters lib params = Except.ok f) :
    parseOptions lib params =
      Except.ok
        { sort := vget params "_sort"
          order := goToLower (vget params "_order")
          offset := goAtoiVal (vget params "_start")
          max := goFloatMax0 (wrap64 (goAtoiVal (vget params "_end") - goAtoiVal (vget params "_start")))
          filters := f } := by
  unfold parseOptions
  rw [hpf]

theorem parseOptions_filters (lib : Stdlib) (params : Params) (q : QueryOptions)
    (hq : parseOptions lib params = Except.ok q) :
    parseFilters lib params = Except.ok q.filters := by
  unfold parseOptions at hq
  cases hpf : parseFilters lib params with
  | error e => rw [hpf] at hq; cases hq
  | ok f =>
      rw [hpf] at hq
      cases hq
      rfl

theorem parseOptions_error_of_filters (lib : Stdlib) (params : Params) (msg : String)
    (hpf : parseFilters lib params = Except.error msg) :
    parseOptions lib params = Except.error msg := by
  unfold parseOptions
  rw [hpf]

theorem parseOptions_empty : parseOptions stdlibFail [] = Except.ok optsEmpty := by
  rfl

theorem fget_fset_self (m : Filters) (k : String) (v : FVal) :
    fget (fset m k v) k = some v := by
  induction m with
  | nil => simp [fget, fset]
  | cons kv rest ih =>
      obtain ⟨k', v'⟩ := kv
      by_cases h : k' = k
      · simp [fget, fset, h]
      · simp only [fset, if_neg h]
        simpa [fget, h] using ih

theorem fget_fset_ne (m : Filters) (k k' : String) (v : FVal) (h : k ≠ k') :
    fget (fset m k' v) k = fget m k := by
  induction m with
  | nil => simp [fget, fset, Ne.symm h]
  | cons kv rest ih =>
      obtain ⟨k0, v0⟩ := kv
      by_cases h0 : k0 = k'
      · subst h0
        simp [fget, fset, Ne.symm h]
      · by_cases h1 : k0 = k
        · subst h1
          simp [fget, fset, h0]
        · simp only [fset, if_neg h0]
          simpa [fget, h1] using ih

theorem fget_insertPairs_of_skip (pairs : List (String × Json)) (acc : Filters)
    (k : String) (h : k ∉ pairs.map Prod.fst) :
    fget (insertPairs pairs acc) k = fget acc k := by
  induction pairs generalizing acc with
  | nil => rfl
  | cons kv rest ih =>
      obtain ⟨k0, v0⟩ := kv
      simp only [List.map_cons, List.mem_cons, not_or] at h
      rw [insertPairs, ih _ h.2, fget_fset_ne _ _ _ _ (fun he => h.1 he)]

theorem fget_insertPairs_of_mem (pairs : List (String × Json)) (acc : Filters)
    (k : String) (v : Json)
    (hnd : (pairs.map Prod.fst).Nodup) (hmem : (k, v) ∈ pairs) :
    fget (insertPairs pairs acc) k = some (FVal.jsonVal v) := by
  induction pairs generalizing acc with
  | nil => cases hmem
  | cons kv rest ih =>
      obtain ⟨k0, v0⟩ := kv
      simp only [List.map_cons, List.nodup_cons] at hnd
      rcases List.mem_cons.mp hmem with heq | hmemrest
      · injection heq with h1 h2
        subst h1; subst h2
        rw [insertPairs, fget_insertPairs_of_skip _ _ _ hnd.1]
        exact fget_fset_self acc k (FVal.jsonVal v)
      · rw [insertPairs]
        exact ih _ hnd.2 hmemrest

theorem fget_foldParams_of_skip (params : Params) (m : Filters) (k : String)
    (h : ∀ kv ∈ params, startsWithUnderscore kv.1 = false → kv.1 ≠ k) :
    fget (foldParams params m) k = fget m k := by
  induction params generalizing m with
  | nil => rfl
  | cons kv rest ih =>
      obtain ⟨k0, vs0⟩ := kv
      rw [foldParams, ih _ (fun kv hm hu => h kv (List.mem_cons_of_mem _ hm) hu)]
      by_cases h0 : startsWithUnderscore k0 = true
      · rw [if_pos h0]
      · have h0' : startsWithUnderscore k0 = false := by
          revert h0; cases startsWithUnderscore k0 <;> simp
        rw [if_neg h0]
        exact fget_fset_ne m k k0 _
          (fun he => h (k0, vs0) (List.mem_cons_self _ _) h0' he.symm)

theorem fget_foldParams_of_mem (params : Params) (m : Filters) (k : String)
    (vs : List String)
    (hnd : (params.map Prod.fst).Nodup)
    (hmem : (k, vs) ∈ params)
    (hk : startsWithUnderscore k = false) :
    fget (foldParams params m) k = some (foldVal vs) := by
  induction params generalizing m with
  | nil => cases hmem
  | cons kv rest ih =>
      obtain ⟨k0, vs0⟩ := kv
      simp only [List.map_cons, List.nodup_cons] at hnd
      rcases List.mem_cons.mp hmem with heq | hmemrest
      · injection heq with h1 h2
        subst h1; subst h2
        rw [foldParams, if_neg (by simp [hk]),
          fget_foldParams_of_skip rest _ k
            (fun kv hm _ => fun he => hnd.1 (he ▸ List.mem_map_of_mem Prod.fst hm))]
        exact fget_fset_self m k (foldVal vs)
      · rw [foldParams]
        exact ih _ hnd.2 hmemrest

theorem parseFilters_ok_shape (lib : Stdlib) (params : Params) (f : Filters)
    (hpf : parseFilters lib params = Except.ok f) :
    ∃ base, f = foldParams params base := by
  by_cases h : vget params "_filters" = ""
  · rw [parseFilters_no_filterstr lib params h] at hpf
    exact ⟨[], by injection hpf with h'; exact h'.symm⟩
  · cases hm : lib.unmarshalObj (lib.queryUnescape (vget params "_filters")) with
    | error msg =>
        rw [parseFilters_unmarshal_error lib params msg h hm] at hpf
        cases hpf
    | ok pairs =>
        rw [parseFilters_unmarshal_ok lib params pairs h hm] at hpf
        exact ⟨filtersFromPairs pairs, by injection hpf with h'; exact h'.symm⟩

/-! Claims C7, C10, C4. -/

/-- Claim C7: every query key not prefixed with an underscore is folded into
the filters map of the parsed options; a key with exactly one value is stored
as that scalar string, and a key with two or more values is stored as the
list of those values in order. (The query map's keys are distinct, being a Go
map.) -/
theorem c7_plain_keys_folded_into_filters (lib : Stdlib) (params : Params)
    (k : String) (vs : List String) (q : QueryOptions)
    (hnd : (params.map Prod.fst).Nodup)
    (hmem : (k, vs) ∈ params)
    (hk : startsWithUnderscore k = false)
    (hq : parseOptions lib params = Except.ok q) :
    (∀ v, vs = [v] → fget q.filters k = some (FVal.str v)) ∧
    (2 ≤ vs.length → fget q.filters k = some (FVal.strs vs)) := by
  obtain ⟨base, hbase⟩ :=
    parseFilters_ok_shape lib params q.filters (parseOptions_filters lib params q hq)
  rw [hbase]
  have hfold := fget_foldParams_of_mem params base k vs hnd hmem hk
  constructor
  · intro v hv
    subst hv
    exact hfold
  · intro hlen
    have hfv : foldVal vs = FVal.strs vs := by
      match vs, hlen with
      | v1 :: v2 :: rest, _ => rfl
    rw [← hfv]
    exact hfold

/-- Witness for C7 at a concrete query with one single-valued and one
two-valued plain key. -/
theorem c7_plain_keys_folded_into_filters_witness :
    (∀ v, ["a", "b"] = [v] →
      fget { sort := "", order := "", max := 0, offset := 0,
             filters := [("name", FVal.str "joe"), ("tag", FVal.strs ["a", "b"])] : QueryOptions }.filters "tag"
        = some (FVal.str v)) ∧
    (2 ≤ ["a", "b"].length →
      fget { sort := "", order := "", max := 0, offset := 0,
             filters := [("name", FVal.str "joe"), ("tag", FVal.strs ["a", "b"])] : QueryOptions }.filters "tag"
        = some (FVal.strs ["a", "b"])) :=
  c7_plain_keys_folded_into_filters stdlibFail
    [("name", ["joe"]), ("tag", ["a", "b"])] "tag" ["a", "b"]
    { sort := "", order := "", max := 0, offset := 0,
      filters := [("name", FVal.str "joe"), ("tag", FVal.strs ["a", "b"])] }
    (by decide) (by decide) (by decide) (by rfl)

/-- Claim C10 (implicit): the reserved :id query key is not excluded from
filter folding — whenever the query string carries a :id parameter, the
parsed filters map contains :id as a key, its value folded like any
user-defined filter, because the folding loop skips only keys prefixed with
an underscore. -/
theorem c10_reserved_id_key_folded (lib : Stdlib) (params : Params)
    (vs : List String) (q : QueryOptions)
    (hnd : (params.map Prod.fst).Nodup)
    (hmem : (":id", vs) ∈ params)
    (hq : parseOptions lib params = Except.ok q) :
    fget q.filters ":id" = some (foldVal vs) := by
  obtain ⟨base, hbase⟩ :=
    parseFilters_ok_shape lib params q.filters (parseOptions_filters lib params q hq)
  rw [hbase]
  exact fget_foldParams_of_mem params base ":id" vs hnd hmem rfl

/-- Witness for C10 at a concrete query carrying :id=7. -/
theorem c10_reserved_id_key_folded_witness :
    fget { sort := "", order := "", max := 0, offset := 0,
           filters := [(":id", FVal.str "7")] : QueryOptions }.filters ":id"
      = some (foldVal ["7"]) :=
  c10_reserved_id_key_folded stdlibFail [(":id", ["7"])] ["7"]
    { sort := "", order := "", max := 0, offset := 0, filters := [(":id", FVal.str "7")] }
    (by decide) (by decide) (by rfl)

/-- Claim C4: a present, well-formed _filters JSON object populates the
filters map of the parsed options with its key/value pairs (second conjunct:
every decoded field not shadowed by a plain query key is present verbatim);
a malformed _filters value makes the whole parse fail, and in that case
GetAll responds 400 without any backend call (first conjunct). -/
theorem c4_filters_populate_or_400 :
    (∀ (lib : Stdlib) (c : Controller σ T) (s : σ) (params : Params) (msg : String),
        vget params "_filters" ≠ "" →
        lib.unmarshalObj (lib.queryUnescape (vget params "_filters")) = Except.error msg →
        parseOptions lib params = Except.error msg ∧
        (Controller.GetAll lib c s params).resp.status = 400 ∧
        (Controller.GetAll lib c s params).events = []) ∧
    (∀ (lib : Stdlib) (params : Params) (pairs : List (String × Json))
        (q : QueryOptions) (k : String) (v : Json),
        vget params "_filters" ≠ "" →
        lib.unmarshalObj (lib.queryUnescape (vget params "_filters")) = Except.ok pairs →
        (pairs.map Prod.fst).Nodup →
        (k, v) ∈ pairs →
        (∀ kv ∈ params, startsWithUnderscore kv.1 = false → kv.1 ≠ k) →
        parseOptions lib params = Except.ok q →
        fget q.filters k = some (FVal.jsonVal v)) := by
  constructor
  · intro lib c s params msg hne hm
    have hopt := parseOptions_error_of_filters lib params msg
      (parseFilters_unmarshal_error lib params msg hne hm)
    refine ⟨hopt, ?_, ?_⟩ <;> simp [Controller.GetAll, hopt, RespondWithError, RespondWithJSON]
  · intro lib params pairs q k v hne hm hnd hmem hskip hq
    have hpf := parseOptions_filters lib params q hq
    rw [parseFilters_unmarshal_ok lib params pairs hne hm] at hpf
    injection hpf with hpf
    rw [← hpf, fget_foldParams_of_skip params _ k hskip, filtersFromPairs,
      fget_insertPairs_of_mem pairs [] k v hnd hmem]

/-- Witness for C4: the malformed conjunct at a concrete bad _filters value,
and the well-formed conjunct at a concrete two-field object. -/
theorem c4_filters_populate_or_400_witness :
    (parseOptions stdlibFail [("_filters", ["bad"])]
        = Except.error "unexpected end of JSON input" ∧
      (Controller.GetAll stdlibFail cReadOnly 0 [("_filters", ["bad"])]).resp.status = 400 ∧
      (Controller.GetAll stdlibFail cReadOnly 0 [("_filters", ["bad"])]).events = []) ∧
    fget { sort := "", order := "", max := 0, offset := 0,
           filters := [("a", FVal.jsonVal (Json.str "1")), ("b", FVal.jsonVal (Json.num 2))] : QueryOptions }.filters "a"
      = some (FVal.jsonVal (Json.str "1")) :=
  ⟨(@c4_filters_populate_or_400 Nat Unit).1 stdlibFail cReadOnly 0 [("_filters", ["bad"])]
      "unexpected end of JSON input" (by decide) rfl,
    (@c4_filters_populate_or_400 Nat Unit).2 stdlibTwoFields [("_filters", ["FOBJ"])]
      [("a", Json.str "1"), ("b", Json.num 2)]
      { sort := "", order := "", max := 0, offset := 0,
        filters := [("a", FVal.jsonVal (Json.str "1")), ("b", FVal.jsonVal (Json.num 2))] }
      "a" (Json.str "1") (by decide) rfl (by decide) (List.mem_cons_self _ _) (by decide) rfl⟩

/-! Claims C1, C6, C5. -/

/-- Claim C1: for every Post, Put or Delete request handled by a controller
whose backend lacks the Persistable capability, the handler responds 405 and
nothing else happens: the body is never read, no backend call is made, and
the backend state is unchanged. -/
theorem c1_mutations_on_readonly_405 (c : Controller σ T) (hp : c.persistable = none)
    (s : σ) (params : Params) (body : Option Json) :
    ((Controller.Put c s params body).resp.status = 405 ∧
      (Controller.Put c s params body).events = [] ∧
      (Controller.Put c s params body).state = s) ∧
    ((Controller.Post c s body).resp.status = 405 ∧
      (Controller.Post c s body).events = [] ∧
      (Controller.Post c s body).state = s) ∧
    ((Controller.Delete c s params).resp.status = 405 ∧
      (Controller.Delete c s params).events = [] ∧
      (Controller.Delete c s params).state = s) := by
  simp [Controller.Put, Controller.Post, Controller.Delete, hp,
    RespondWithError, RespondWithJSON]

/-- Witness for C1 at a concrete read-only controller. -/
theorem c1_mutations_on_readonly_405_witness :
    ((Controller.Put cReadOnly 0 [] none).resp.status = 405 ∧
      (Controller.Put cReadOnly 0 [] none).events = [] ∧
      (Controller.Put cReadOnly 0 [] none).state = 0) ∧
    ((Controller.Post cReadOnly 0 none).resp.status = 405 ∧
      (Controller.Post cReadOnly 0 none).events = [] ∧
      (Controller.Post cReadOnly 0 none).state = 0) ∧
    ((Controller.Delete cReadOnly 0 []).resp.status = 405 ∧
      (Controller.Delete cReadOnly 0 []).events = [] ∧
      (Controller.Delete cReadOnly 0 []).state = 0) :=
  c1_mutations_on_readonly_405 cReadOnly rfl 0 [] none

/-- Claim C6: for every Post request on a Persistable backend whose body does
not decode as valid JSON for the entity type, the handler responds 422 after
only reading the body: Save is never called and the backend state is
unchanged. -/
theorem c6_post_undecodable_body_422 (c : Controller σ T) (p : Persistable σ T)
    (hp : c.persistable = some p) (s : σ) (body : Option Json)
    (hdec : body.bind c.decode = none) :
    (Controller.Post c s body).resp.status = 422 ∧
    (Controller.Post c s body).events = [Event.bodyRead] ∧
    (Controller.Post c s body).state = s := by
  simp [Controller.Post, hp, hdec, RespondWithError, RespondWithJSON]

/-- Witness for C6: a body that is valid JSON but not an object is rejected by
the concrete controller's decoder. -/
theorem c6_post_undecodable_body_422_witness :
    (Controller.Post cPersist 0 (some (Json.num 3))).resp.status = 422 ∧
    (Controller.Post cPersist 0 (some (Json.num 3))).events = [Event.bodyRead] ∧
    (Controller.Post cPersist 0 (some (Json.num 3))).state = 0 :=
  c6_post_undecodable_body_422 cPersist persW rfl 0 (some (Json.num 3)) rfl

/-- Claim C5: for every GetAll request where ReadAll succeeds, the response is
200, X-Total-Count is the decimal rendering of the value returned by Count
(whose error, if any, is discarded — the response is 200 regardless), and an
empty result set renders as the empty JSON array. -/
theorem c5_getall_success_count_header (lib : Stdlib) (c : Controller σ T) (s : σ)
    (params : Params) (opts : QueryOptions) (entities : List T)
    (hopts : parseOptions lib params = Except.ok opts)
    (hread : c.repository.ReadAll s opts = Except.ok entities) :
    (Controller.GetAll lib c s params).resp.status = 200 ∧
    (Controller.GetAll lib c s params).resp.xTotalCount
      = some (toString (c.repository.Count s opts).1) ∧
    (entities = [] → (Controller.GetAll lib c s params).resp.body = Json.arr []) := by
  refine ⟨?_, ?_, fun h => ?_⟩ <;> simp only [Controller.GetAll, hopts, hread]
  · subst h
    rfl

/-- Witness for C5: an empty backend whose Count errors still yields 200 with
an empty-array body and the count header. -/
theorem c5_getall_success_count_header_witness :
    (Controller.GetAll stdlibFail cCountErr 0 []).resp.status = 200 ∧
    (Controller.GetAll stdlibFail cCountErr 0 []).resp.xTotalCount
      = some (toString (cCountErr.repository.Count 0 optsEmpty).1) ∧
    ([] = ([] : List Unit) → (Controller.GetAll stdlibFail cCountErr 0 []).resp.body = Json.arr []) :=
  c5_getall_success_count_header stdlibFail cCountErr 0 [] optsEmpty []
    (by rfl) (by rfl)

/-! Claim C2. -/

/-- Claim C2: for every Put request whose body parses as a JSON object (and
decodes into the entity type), the handler calls Update with exactly the set
of top-level key names of the submitted object — their values play no role —
and whenever Update succeeds it re-invokes the Get path, so a 200 response
body is the entity as re-read from the backend after the update. -/
theorem c2_put_field_names_and_reread (c : Controller σ T) (p : Persistable σ T)
    (hp : c.persistable = some p) (s : σ) (params : Params)
    (flds : List (String × Json)) (entity : T)
    (hdec : c.decode (Json.obj flds) = some entity) :
    (Event.update (vget params ":id") entity ((flds.map Prod.fst).dedup)
        ∈ (Controller.Put c s params (some (Json.obj flds))).events) ∧
    (∀ k, k ∈ (flds.map Prod.fst).dedup ↔ k ∈ flds.map Prod.fst) ∧
    (∀ s', p.Update s (vget params ":id") entity ((flds.map Prod.fst).dedup) = Except.ok s' →
        (Controller.Put c s params (some (Json.obj flds))).resp
          = (Controller.Get c s' params).resp) ∧
    (∀ s' e', p.Update s (vget params ":id") entity ((flds.map Prod.fst).dedup) = Except.ok s' →
        c.repository.Read s' (vget params ":id") = Except.ok e' →
        (Controller.Put c s params (some (Json.obj flds))).resp
          = { status := 200, body := c.encode e', xTotalCount := none }) := by
  have hfn : Controller.getFieldNames (Json.obj flds)
      = Except.ok ((flds.map Prod.fst).dedup) := rfl
  refine ⟨?_, fun k => List.mem_dedup, ?_, ?_⟩
  · simp only [Controller.Put, hp, hdec, hfn]
    cases hu : p.Update s (vget params ":id") entity ((flds.map Prod.fst).dedup) with
    | ok s' => simp
    | error e => cases e <;> simp
  · intro s' hu
    simp only [Controller.Put, hp, hdec, hfn, hu]
  · intro s' e' hu hr
    simp only [Controller.Put, hp, hdec, hfn, hu, Controller.Get, hr]
    rfl

/-- Witness for C2 at a concrete Put of a one-field object to id 9. -/
theorem c2_put_field_names_and_reread_witness :
    (Event.update "9" () (([("age", Json.num 30)].map Prod.fst).dedup)
        ∈ (Controller.Put cPut 0 [(":id", ["9"])] (some (Json.obj [("age", Json.num 30)]))).events) ∧
    ("age" ∈ ([("age", Json.num 30)].map Prod.fst).dedup ↔
      "age" ∈ [("age", Json.num 30)].map Prod.fst) ∧
    ((Controller.Put cPut 0 [(":id", ["9"])] (some (Json.obj [("age", Json.num 30)]))).resp
        = (Controller.Get cPut 0 [(":id", ["9"])]).resp) ∧
    ((Controller.Put cPut 0 [(":id", ["9"])] (some (Json.obj [("age", Json.num 30)]))).resp
        = { status := 200, body := cPut.encode (), xTotalCount := none }) :=
  have h := c2_put_field_names_and_reread cPut persW rfl 0 [(":id", ["9"])]
    [("age", Json.num 30)] () rfl
  ⟨h.1, h.2.1 "age", h.2.2.1 0 rfl, h.2.2.2 0 () rfl rfl⟩

/-! Claim C3: lemmas about the Atoi / wrap / float pipeline. -/

theorem goAtoiVal_of_atoiOk (s : String) (v : Int) (h : atoiOk s = some v) :
    goAtoiVal s = v := by
  unfold atoiOk at h
  cases hp : atoiParsed s with
  | none => rw [hp] at h; cases h
  | some w =>
      rw [hp] at h
      change (if int64Min ≤ w ∧ w ≤ int64Max then some w else none) = some v at h
      by_cases hb : int64Min ≤ w ∧ w ≤ int64Max
      · rw [if_pos hb] at h
        injection h with h
        subst h
        unfold goAtoiVal
        rw [hp]
        show (if w < int64Min then int64Min else if w > int64Max then int64Max else w) = w
        rw [if_neg (not_lt.mpr hb.1), if_neg (not_lt.mpr hb.2)]
      · rw [if_neg hb] at h
        cases h

theorem goAtoiVal_of_parsed_none (s : String) (h : atoiParsed s = none) :
    goAtoiVal s = 0 := by
  unfold goAtoiVal
  rw [h]

theorem unitFor_of_lt (fuel n : Nat) (h : n < 2 ^ 53) : unitFor (fuel + 1) n = 1 := by
  unfold unitFor
  rw [if_pos h]

theorem rnd53Nat_of_lt (n : Nat) (h : n < 2 ^ 53) : rnd53Nat n = n := by
  unfold rnd53Nat
  have h64 : (64 : Nat) = 63 + 1 := rfl
  rw [h64, unitFor_of_lt 63 n h]
  simp [Nat.mod_one, Nat.div_one]

theorem rnd53Nat_cap : rnd53Nat (2 ^ 53) = 2 ^ 53 := by decide

theorem rnd53Nat_small (n : Nat) (h : n ≤ 2 ^ 53) : rnd53Nat n = n := by
  rcases Nat.lt_or_ge n (2 ^ 53) with hlt | hge
  · exact rnd53Nat_of_lt n hlt
  · rw [le_antisymm h hge]
    exact rnd53Nat_cap

theorem rnd53_exact (x : Int) (h : x.natAbs ≤ 2 ^ 53) : rnd53 x = x := by
  unfold rnd53
  by_cases hx : x < 0
  · rw [if_pos hx, rnd53Nat_small _ h]
    omega
  · rw [if_neg hx, rnd53Nat_small _ h]
    omega

theorem goFloatMax0_small (x : Int) (h : x.natAbs ≤ 2 ^ 53) : goFloatMax0 x = max 0 x := by
  unfold goFloatMax0
  rw [rnd53_exact x h]
  by_cases h0 : x ≤ 0
  · rw [if_pos h0, max_eq_left h0]
  · rw [if_neg h0, max_eq_right (le_of_lt (not_le.mp h0))]

theorem wrap64_id (x : Int) (h1 : -(2 ^ 63) ≤ x) (h2 : x < 2 ^ 63) : wrap64 x = x := by
  have e63 : (2 : Int) ^ 63 = 9223372036854775808 := by norm_num
  have e64 : (2 : Int) ^ 64 = 18446744073709551616 := by norm_num
  rw [e63] at h1 h2
  unfold wrap64
  rw [e63, e64, Int.emod_eq_of_lt (by omega) (by omega)]
  omega

/-- Counterexample to claim C3 as stated: _start parses as s = -2^62 and _end
parses as e = 2^62 (both in the int range), e exceeds s, the parse succeeds
with offset = s, yet max is 0, not e - s: the 64-bit subtraction end - start
wraps to -2^63, and max(0, -2^63) is 0. -/
theorem c3_counterexample :
    atoiOk "-4611686018427387904" = some (-(2 ^ 62)) ∧
    atoiOk "4611686018427387904" = some (2 ^ 62) ∧
    (-(2 ^ 62) : Int) < 2 ^ 62 ∧
    (parseOptions stdlibFail c3params).toOption.map QueryOptions.offset = some (-(2 ^ 62)) ∧
    (parseOptions stdlibFail c3params).toOption.map QueryOptions.max = some 0 ∧
    (0 : Int) ≠ 2 ^ 62 - -(2 ^ 62) :=
  ⟨by decide, by decide, by decide, by decide, by decide, by decide⟩

/-- Claim C3 as amended: for every raw query-parameter map, parseOptions uses
for _start and _end the value strconv.Atoi returns with its error discarded
(goAtoiVal): the parsed integer when the text is a well-formed integer in the
64-bit int range (third and fourth conjuncts), 0 when the parameter is absent
or syntactically unparsable (fifth and sixth conjuncts), and the nearest int
bound — not 0 — when the text is a well-formed integer out of range. With s'
and e' these effective values, every successful parse has offset = s'
unconditionally (first conjunct), and whenever the difference e' - s' has
magnitude at most 2^53 (so the 64-bit subtraction cannot wrap and the float64
round-trip inside int(math.Max(0, float64(end-start))) is exact — in
particular for all realistic pagination values), max = max(0, e' - s'): for
e' > s', max = e' - s', and for e' <= s', max = 0 (second conjunct). -/
theorem c3_amended_offset_and_max (lib : Stdlib) (params : Params) (q : QueryOptions)
    (hq : parseOptions lib params = Except.ok q) :
    q.offset = goAtoiVal (vget params "_start") ∧
    ((goAtoiVal (vget params "_end") - goAtoiVal (vget params "_start")).natAbs ≤ 2 ^ 53 →
      q.max = max 0 (goAtoiVal (vget params "_end") - goAtoiVal (vget params "_start"))) ∧
    (∀ v, atoiOk (vget params "_start") = some v → goAtoiVal (vget params "_start") = v) ∧
    (∀ v, atoiOk (vget params "_end") = some v → goAtoiVal (vget params "_end") = v) ∧
    (atoiParsed (vget params "_start") = none → goAtoiVal (vget params "_start") = 0) ∧
    (atoiParsed (vget params "_end") = none → goAtoiVal (vget params "_end") = 0) := by
  have hpf := parseOptions_filters lib params q hq
  have hshape := parseOptions_of_filters lib params q.filters hpf
  rw [hq] at hshape
  injection hshape with hshape
  refine ⟨?_, ?_, fun v hv => goAtoiVal_of_atoiOk _ v hv,
    fun v hv => goAtoiVal_of_atoiOk _ v hv,
    fun hn => goAtoiVal_of_parsed_none _ hn,
    fun hn => goAtoiVal_of_parsed_none _ hn⟩
  · rw [hshape]
  · intro hd
    rw [hshape]
    show goFloatMax0 (wrap64 (goAtoiVal (vget params "_end")
        - goAtoiVal (vget params "_start"))) = _
    have hw : wrap64 (goAtoiVal (vget params "_end") - goAtoiVal (vget params "_start"))
        = goAtoiVal (vget params "_end") - goAtoiVal (vget params "_start") := by
      have e53 : (2 : Nat) ^ 53 = 9007199254740992 := by norm_num
      have e63 : (2 : Int) ^ 63 = 9223372036854775808 := by norm_num
      rw [e53] at hd
      refine wrap64_id _ ?_ ?_ <;> rw [e63] <;> omega
    rw [hw, goFloatMax0_small _ hd]

/-- Witness for the amended C3: at _start=10, _end=30 the effective values
are the parsed 10 and 30 and max is 20; at an empty query both effective
values default to 0 and offset and max are 0. -/
theorem c3_amended_offset_and_max_witness :
    ({ sort := "", order := "", max := 20, offset := 10, filters := [] } : QueryOptions).offset
        = goAtoiVal (vget [("_start", ["10"]), ("_end", ["30"])] "_start") ∧
    ({ sort := "", order := "", max := 20, offset := 10, filters := [] } : QueryOptions).max
        = max 0 (goAtoiVal (vget [("_start", ["10"]), ("_end", ["30"])] "_end")
            - goAtoiVal (vget [("_start", ["10"]), ("_end", ["30"])] "_start")) ∧
    goAtoiVal (vget [("_start", ["10"]), ("_end", ["30"])] "_start") = 10 ∧
    goAtoiVal (vget [("_start", ["10"]), ("_end", ["30"])] "_end") = 30 ∧
    optsEmpty.offset = 0 ∧
    goAtoiVal (vget ([] : Params) "_start") = 0 :=
  have h := c3_amended_offset_and_max stdlibFail [("_start", ["10"]), ("_end", ["30"])]
    { sort := "", order := "", max := 20, offset := 10, filters := [] } (by rfl)
  have h0 := c3_amended_offset_and_max stdlibFail [] optsEmpty (by rfl)
  ⟨h.1, h.2.1 (by decide), h.2.2.1 10 (by decide), h.2.2.2.1 30 (by decide),
    h0.1.trans (by decide), h0.2.2.2.2.1 (by rfl)⟩

/-! Claim C9. -/

/-- Counterexample to claim C9 as stated: with no _order parameter,
parseOptions leaves order as the empty string, not the documented default
value asc. -/
theorem c9_counterexample :
    vget ([] : Params) "_order" = "" ∧
    (parseOptions stdlibFail []).toOption.map QueryOptions.order = some "" ∧
    ("" : String) ≠ "asc" :=
  ⟨rfl, by decide, by decide⟩

/-- Claim C9 as amended: parseOptions always sets order to the lower-cased
_order value; in particular, when _order is absent, order is the empty string
(the documented default asc is an interpretation left to the backend, not a
value parseOptions substitutes). -/
theorem c9_amended_order_lowercased (lib : Stdlib) (params : Params) (q : QueryOptions)
    (hq : parseOptions lib params = Except.ok q) :
    q.order = goToLower (vget params "_order") ∧
    (vget params "_order" = "" → q.order = "") := by
  have hpf := parseOptions_filters lib params q hq
  have hshape := parseOptions_of_filters lib params q.filters hpf
  rw [hq] at hshape
  injection hshape with hshape
  constructor
  · rw [hshape]
  · intro h0
    rw [hshape, h0]
    rfl

/-- Witness for the amended C9 at _order=DESC. -/
theorem c9_amended_order_lowercased_witness :
    ({ sort := "", order := "desc", max := 0, offset := 0, filters := [] } : QueryOptions).order
        = goToLower (vget [("_order", ["DESC"])] "_order") ∧
    (vget [("_order", ["DESC"])] "_order" = "" →
      ({ sort := "", order := "desc", max := 0, offset := 0, filters := [] } : QueryOptions).order
        = "") :=
  c9_amended_order_lowercased stdlibFail [("_order", ["DESC"])]
    { sort := "", order := "desc", max := 0, offset := 0, filters := [] } (by rfl)

/-! Claim C8: failure bodies. -/

theorem failureBodyOk_error (code : Nat) (msg : String) :
    failureBodyOk (RespondWithError code msg).body :=
  Or.inl ⟨⟨msg, rfl⟩, rfl⟩

theorem failureBodyOk_validation (es : List (String × String)) :
    failureBodyOk (encodeValidationError es) :=
  Or.inr ⟨⟨_, rfl⟩, rfl⟩

theorem get_failure_shape (c : Controller σ T) (s : σ) (params : Params)
    (h : (Controller.Get c s params).resp.status ≠ 200) :
    failureBodyOk (Controller.Get c s params).resp.body := by
  cases hr : c.repository.Read s (vget params ":id") with
  | ok e =>
      exfalso
      apply h
      simp only [Controller.Get, hr, RespondWithJSON]
  | error err =>
      simp only [Controller.Get, hr]
      cases err <;> exact failureBodyOk_error _ _

theorem getAll_failure_shape (lib : Stdlib) (c : Controller σ T) (s : σ) (params : Params)
    (h : (Controller.GetAll lib c s params).resp.status ≠ 200) :
    failureBodyOk (Controller.GetAll lib c s params).resp.body := by
  cases ho : parseOptions lib params with
  | error e =>
      simp only [Controller.GetAll, ho]
      exact failureBodyOk_error _ _
  | ok opts =>
      cases hr : c.repository.ReadAll s opts with
      | ok entities =>
          exfalso
          apply h
          simp only [Controller.GetAll, ho, hr]
      | error err =>
          simp only [Controller.GetAll, ho, hr]
          cases err <;> exact failureBodyOk_error _ _

theorem post_failure_shape (c : Controller σ T) (s : σ) (body : Option Json)
    (h : (Controller.Post c s body).resp.status ≠ 200) :
    failureBodyOk (Controller.Post c s body).resp.body := by
  cases hp : c.persistable with
  | none =>
      simp only [Controller.Post, hp]
      exact failureBodyOk_error _ _
  | some repo =>
      cases hd : body.bind c.decode with
      | none =>
          simp only [Controller.Post, hp, hd]
          exact failureBodyOk_error _ _
      | some entity =>
          cases hs : repo.Save s entity with
          | ok r =>
              obtain ⟨id, s'⟩ := r
              exfalso
              apply h
              simp only [Controller.Post, hp, hd, hs, RespondWithJSON]
          | error err =>
              simp only [Controller.Post, hp, hd, hs]
              cases err
              case validation es => exact failureBodyOk_validation es
              all_goals exact failureBodyOk_error _ _

theorem put_failure_shape (c : Controller σ T) (s : σ) (params : Params) (body : Option Json)
    (h : (Controller.Put c s params body).resp.status ≠ 200) :
    failureBodyOk (Controller.Put c s params body).resp.body := by
  cases hp : c.persistable with
  | none =>
      simp only [Controller.Put, hp]
      exact failureBodyOk_error _ _
  | some repo =>
      cases body with
      | none =>
          simp only [Controller.Put, hp]
          exact failureBodyOk_error _ _
      | some j =>
          cases hd : c.decode j with
          | none =>
              simp only [Controller.Put, hp, hd]
              exact failureBodyOk_error _ _
          | some entity =>
              cases hf : Controller.getFieldNames j with
              | error e =>
                  simp only [Controller.Put, hp, hd, hf]
                  exact failureBodyOk_error _ _
              | ok fields =>
                  cases hu : repo.Update s (vget params ":id") entity fields with
                  | ok s' =>
                      simp only [Controller.Put, hp, hd, hf, hu]
                      refine get_failure_shape c s' params (fun h200 => h ?_)
                      simp only [Controller.Put, hp, hd, hf, hu]
                      exact h200
                  | error err =>
                      simp only [Controller.Put, hp, hd, hf, hu]
                      cases err
                      case validation es => exact failureBodyOk_validation es
                      all_goals exact failureBodyOk_error _ _

theorem delete_failure_shape (c : Controller σ T) (s : σ) (params : Params)
    (h : (Controller.Delete c s params).resp.status ≠ 200) :
    failureBodyOk (Controller.Delete c s params).resp.body := by
  cases hp : c.persistable with
  | none =>
      simp only [Controller.Delete, hp]
      exact failureBodyOk_error _ _
  | some repo =>
      cases hd : repo.Delete s (getAllVals params ":id") with
      | ok s' =>
          exfalso
          apply h
          simp only [Controller.Delete, hp, hd, RespondWithJSON]
      | error err =>
          simp only [Controller.Delete, hp, hd]
          cases err <;> exact failureBodyOk_error _ _

/-- Claim C8: for every request to any of the five handlers and every backend
outcome, a response that signals failure (status other than 200) carries a
JSON body with either a single error string field or a single errors
field-map — never both (each disjunct of failureBodyOk asserts the other
field's absence). -/
theorem c8_failure_bodies_error_xor_errors (lib : Stdlib) (c : Controller σ T) (s : σ)
    (params : Params) (body : Option Json) :
    ((Controller.Get c s params).resp.status ≠ 200 →
        failureBodyOk (Controller.Get c s params).resp.body) ∧
    ((Controller.GetAll lib c s params).resp.status ≠ 200 →
        failureBodyOk (Controller.GetAll lib c s params).resp.body) ∧
    ((Controller.Post c s body).resp.status ≠ 200 →
        failureBodyOk (Controller.Post c s body).resp.body) ∧
    ((Controller.Put c s params body).resp.status ≠ 200 →
        failureBodyOk (Controller.Put c s params body).resp.body) ∧
    ((Controller.Delete c s params).resp.status ≠ 200 →
        failureBodyOk (Controller.Delete c s params).resp.body) :=
  ⟨get_failure_shape c s params,
    getAll_failure_shape lib c s params,
    post_failure_shape c s body,
    put_failure_shape c s params body,
    delete_failure_shape c s params⟩

/-- Witness for C8: the concrete 404 body of a Get on an empty backend and
the concrete 405 body of a Delete on a read-only backend satisfy the failure
contract. -/
theorem c8_failure_bodies_error_xor_errors_witness :
    failureBodyOk (Controller.Get cReadOnly 0 []).resp.body ∧
    failureBodyOk (Controller.Delete cReadOnly 0 []).resp.body :=
  ⟨(c8_failure_bodies_error_xor_errors stdlibFail cReadOnly 0 [] none).1 (by decide),
    (c8_failure_bodies_error_xor_errors stdlibFail cReadOnly 0 [] none).2.2.2.2 (by decide)⟩

end Rest
